import Mathlib

/-!
# Movie-Chatbot: the client-side session gate and landing router

A shallow embedding of the two browser scripts of the repository,
`app/static/js/auth.js` (the Session Gate) and `app/static/js/script.js`
(the Landing Router), together with the properties their design note states.

The browser is an explicit state: local storage, the path of the current
document, the log of assignments to `window.location.href`, the log of the
requests handed to `fetch`, the `Headers` objects and the plain objects that
exist, and the console. Every JavaScript function is a function on that state.
-/

namespace MovieChatbot

/-! ## Browser model -/

/-- Browser local storage: the stored key/value entries. A key is looked up at
its first entry; removing a key removes every entry under it. -/
structure Storage where
  entries : List (String × String)
deriving DecidableEq, Repr

/-- The call `localStorage.getItem(key)`: the stored string, or `none` for the
JavaScript `null` of an absent key. -/
def Storage.getItem (s : Storage) (key : String) : Option String :=
  (s.entries.find? (fun e => e.1 == key)).map Prod.snd

/-- The call `localStorage.removeItem(key)`. -/
def Storage.removeItem (s : Storage) (key : String) : Storage :=
  ⟨s.entries.filter (fun e => e.1 != key)⟩

/-- JavaScript truthiness of a value that is a string or `null`: `null` and the
empty string are falsy, every other string is truthy. -/
def toBoolean : Option String → Bool
  | none => false
  | some s => s != ""

/-- What a template literal prints for a value that is a string or `null`. -/
def jsToString : Option String → String
  | none => "null"
  | some s => s

/-- The method `String.prototype.startsWith`. -/
def startsWith (s p : String) : Bool :=
  p.data.isPrefixOf s.data

/-- Header names are compared without regard to ASCII case. -/
def lower (s : String) : String :=
  ⟨s.data.map Char.toLower⟩

/-- HTTP whitespace: tab, line feed, carriage return and space. -/
def isHttpWhitespace (c : Char) : Bool :=
  c.toNat == 9 || c.toNat == 10 || c.toNat == 13 || c.toNat == 32

/-- A header value as a `Headers` object stores it: the value without its
leading and trailing HTTP whitespace. -/
def normalizeValue (value : String) : String :=
  ⟨(value.data.dropWhile isHttpWhitespace).rdropWhile isHttpWhitespace⟩

/-- Whether a string converts to a byte string: no code unit is above 255. -/
def isByteString (s : String) : Bool :=
  s.data.all (fun c => decide (c.toNat ≤ 255))

/-- The characters of an HTTP token: ASCII letters, digits and the marks
``!#$%&'*+-.^_`|~``. -/
def isTokenChar (c : Char) : Bool :=
  c.isAlphanum ||
    [33, 35, 36, 37, 38, 39, 42, 43, 45, 46, 94, 95, 96, 124, 126].contains c.toNat

/-- Whether a `Headers` method accepts the string as a header name: a non-empty
token. -/
def validName (name : String) : Bool :=
  isByteString name && !name.data.isEmpty && name.data.all isTokenChar

/-- Whether a `Headers` method accepts the string as a header value: a byte
string whose normalised form holds no NUL, line feed or carriage return. -/
def validValue (value : String) : Bool :=
  isByteString value &&
    (normalizeValue value).data.all
      (fun c => c.toNat != 0 && c.toNat != 10 && c.toNat != 13)

/-- Whether a `Headers` method accepts the entry. -/
def validEntry (e : String × String) : Bool :=
  validName e.1 && validValue e.2

/-- The entry as a `Headers` object stores it. -/
def normEntry (e : String × String) : String × String :=
  (e.1, normalizeValue e.2)

/-- A `Headers` object of the browser: its header list, in insertion order. -/
structure Headers where
  list : List (String × String)
deriving DecidableEq, Repr

/-- The empty header list. -/
def Headers.empty : Headers := ⟨[]⟩

/-- Whether an entry carries the header `name`. -/
def isNamed (name : String) (e : String × String) : Bool :=
  lower e.1 == lower name

/-- The header list with one more entry at its end, as given. -/
def Headers.push (h : Headers) (name value : String) : Headers :=
  ⟨h.list ++ [(name, value)]⟩

/-- The method `Headers.prototype.append`: the entry is added with its value
normalised; `none` when the name or the value is rejected with a `TypeError`. -/
def Headers.append (h : Headers) (name value : String) : Option Headers :=
  if validName name && validValue value then
    some (h.push name (normalizeValue value))
  else none

/-- The method `Headers.prototype.get`: the values stored under the name, joined
by a comma and a space, or `none` when there is none. -/
def Headers.get (h : Headers) (name : String) : Option String :=
  match (h.list.filter (isNamed name)).map Prod.snd with
  | [] => none
  | v :: vs => some (", ".intercalate (v :: vs))

/-- Give the first entry under `name` the value `value` and drop the later
entries under that name. -/
def setFirst (name value : String) : List (String × String) → List (String × String)
  | [] => []
  | e :: es =>
    if isNamed name e then (e.1, value) :: es.filter (fun x => !isNamed name x)
    else e :: setFirst name value es

/-- Setting a header in a header list: the value replaces what is stored under
the name, or the header is added when the name is new. -/
def Headers.replace (h : Headers) (name value : String) : Headers :=
  if h.list.any (isNamed name) then ⟨setFirst name value h.list⟩
  else h.push name value

/-- The method `Headers.prototype.set`: the header is set to the normalised
value; `none` when the name or the value is rejected with a `TypeError`. -/
def Headers.set (h : Headers) (name value : String) : Option Headers :=
  if validName name && validValue value then
    some (h.replace name (normalizeValue value))
  else none

/-- Filling a `Headers` object from entries: each is appended in turn; `none`
when one of them is rejected. -/
def Headers.fill (h : Headers) : List (String × String) → Option Headers
  | [] => some h
  | e :: es =>
    match h.append e.1 e.2 with
    | none => none
    | some h1 => h1.fill es

/-- What is handed to `fetch` as `headers`: a plain object or a sequence of
pairs (its entries), or an existing `Headers` object (by reference). -/
inductive HeadersInit where
  | record (entries : List (String × String))
  | object (ref : Nat)
deriving DecidableEq, Repr

/-- The options object passed to `fetch`: the `headers` member (absent when the
caller gave none) and the other members (`method`, `body`, ...). -/
structure RequestInit where
  headers : Option HeadersInit
  rest : List (String × String)
deriving DecidableEq, Repr

/-- A request as `fetch` issues it. -/
structure Request where
  url : String
  headers : Headers
  rest : List (String × String)
deriving DecidableEq, Repr

/-- The value of a `headers` member as `new Headers(...)` receives it: an object
literal written at the call (its entries), a plain object or sequence of pairs
a caller holds (by reference), or a `Headers` object (by reference). -/
inductive HeadersArg where
  | literal (entries : List (String × String))
  | dictionary (ref : Nat)
  | headers (ref : Nat)
deriving DecidableEq, Repr

/-- A plain object a caller holds: a dictionary of headers (or a sequence of
pairs), or an options object with its `headers` member (absent when it has
none) and its other members. -/
inductive PlainObject where
  | dictionary (entries : List (String × String))
  | options (headers : Option HeadersArg) (rest : List (String × String))
deriving DecidableEq, Repr

/-- The state of the browser a script runs in. -/
structure Browser where
  /-- The content of `localStorage`. -/
  localStorage : Storage
  /-- The value of `window.location.pathname` for the current document. -/
  pathname : String
  /-- The values assigned to `window.location.href`, oldest first. -/
  navigations : List String
  /-- The requests handed to `fetch`, oldest first. -/
  requests : List Request
  /-- The `Headers` objects that exist; a reference is a position in this list. -/
  heap : List Headers
  /-- The plain objects callers hold; a reference is a position in this list. -/
  objects : List PlainObject
  /-- The lines written by `console.error`, oldest first. -/
  console : List String
deriving DecidableEq, Repr

/-- The assignment `window.location.href = target`. The script keeps running
and the current document keeps its path until the handler returns. -/
def navigate (target : String) (b : Browser) : Browser :=
  { b with navigations := b.navigations ++ [target] }

/-- The statement `localStorage.removeItem(key)`. -/
def removeItem (key : String) (b : Browser) : Browser :=
  { b with localStorage := b.localStorage.removeItem key }

/-- The statement `console.error(line, ...)`. -/
def consoleError (line : String) (b : Browser) : Browser :=
  { b with console := b.console ++ [line] }

/-- The header list a `headers` value handed to `fetch` stands for: the entries
of a plain object as given, or the list of the `Headers` object referred to. A
reference to no object stands for the empty list. -/
def fillHeaders (heap : List Headers) : HeadersInit → Headers
  | .record entries => entries.foldl (fun h e => h.push e.1 e.2) Headers.empty
  | .object ref => heap.getD ref Headers.empty

/-- The entries `new Headers(init)` reads from `init`: those of the literal, of
the plain object or of the `Headers` object referred to (the browser hands the
latter over sorted and joined by name, which no lookup by name observes). A
reference to no such object yields no entry. -/
def initEntries (b : Browser) : HeadersArg → List (String × String)
  | .literal entries => entries
  | .dictionary ref =>
    match b.objects[ref]? with
    | some (.dictionary entries) => entries
    | _ => []
  | .headers ref => (b.heap.getD ref Headers.empty).list

/-- The expression `new Headers(init)`: a new object filled with the entries of
`init`, returned by reference; `none` when an entry is rejected and the
constructor throws a `TypeError`. -/
def newHeaders (init : HeadersArg) (b : Browser) : Option (Nat × Browser) :=
  match Headers.empty.fill (initEntries b init) with
  | none => none
  | some h => some (b.heap.length, { b with heap := b.heap ++ [h] })

/-- The call `headers.set(name, value)` on the object at `ref`; `none` when the
method throws a `TypeError`. -/
def headersSet (ref : Nat) (name value : String) (b : Browser) : Option Browser :=
  match (b.heap.getD ref Headers.empty).set name value with
  | none => none
  | some h => some { b with heap := b.heap.set ref h }

/-- The members of the `options` argument of a call: those of the object
passed, or of the default `{}` when the argument is omitted. -/
def optionsMembers (b : Browser) :
    Option Nat → Option HeadersArg × List (String × String)
  | none => (none, [])
  | some ref =>
    match b.objects[ref]? with
    | some (.options headers rest) => (headers, rest)
    | _ => (none, [])

/-- How a call ends, and the state it leaves: it returns, or it throws a
`TypeError`. -/
inductive Completion where
  | returned (b : Browser)
  | threw (b : Browser)
deriving DecidableEq, Repr

/-- Whether the call returned. -/
def Completion.returns : Completion → Bool
  | .returned _ => true
  | .threw _ => false

/-- The state the call leaves. -/
def Completion.state : Completion → Browser
  | .returned b => b
  | .threw b => b

/-- The request `fetch(url, init)` issues: the url, the headers `init` stands
for at the time of the call, and the other members. -/
def requestOf (url : String) (init : RequestInit) (b : Browser) : Request :=
  { url := url
    headers := fillHeaders b.heap (init.headers.getD (.record []))
    rest := init.rest }

/-- The call `fetch(url, init)`: the request is issued. -/
def fetch (url : String) (init : RequestInit) (b : Browser) : Browser :=
  { b with requests := b.requests ++ [requestOf url init b] }

/-! ## `auth.js`: the Session Gate -/

/-- `getAuthToken()`, auth.js lines 2-4. -/
def getAuthToken (b : Browser) : Option String × Browser :=
  (b.localStorage.getItem "access_token", b)

/-- `isAuthenticated()`, auth.js lines 7-9: `!!getAuthToken()`. -/
def isAuthenticated (b : Browser) : Bool × Browser :=
  let (token, b1) := getAuthToken b
  (!(!(toBoolean token)), b1)

/-- `requireAuth()`, auth.js lines 12-18. -/
def requireAuth (b : Browser) : Bool × Browser :=
  let (auth, b1) := isAuthenticated b
  if !auth then
    (false, navigate "/login" b1)
  else
    (true, b1)

/-- `authFetch(url, options)`, auth.js lines 21-33. The argument `options` is a
reference to the caller's options object, or `none` when it is omitted. When
`new Headers` or `headers.set` throws, the call throws and `fetch` is not
reached. -/
def authFetch (url : String) (options : Option Nat) (b : Browser) : Completion :=
  let (token, b1) := getAuthToken b
  let (optionsHeaders, rest) := optionsMembers b1 options
  match newHeaders (optionsHeaders.getD (.literal [])) b1 with
  | none => .threw b1
  | some (headers, b2) =>
    let afterSet :=
      if toBoolean token then
        headersSet headers "Authorization" ("Bearer " ++ jsToString token) b2
      else some b2
    match afterSet with
    | none => .threw b2
    | some b3 =>
      .returned (fetch url { headers := some (.object headers), rest := rest } b3)

/-- The check for protected pages, auth.js lines 47-51. -/
def adminCheck (b : Browser) : Browser :=
  if startsWith b.pathname "/admin" then
    let (auth, b1) := isAuthenticated b
    if !auth then navigate "/login" b1 else b1
  else b

/-- The page-load handler of auth.js, lines 36-52, with the code that follows
the login branch as a parameter. -/
def sessionGateWith (afterLogin : Browser → Browser) (b : Browser) : Browser :=
  if b.pathname = "/login" then
    let (auth, b1) := isAuthenticated b
    if auth then navigate "/admin" b1 else b1
  else
    afterLogin b

/-- The page-load handler of auth.js, lines 36-52. -/
def sessionGate (b : Browser) : Browser :=
  sessionGateWith adminCheck b

/-! ## `script.js`: the Landing Router -/

/-- How the probe of `/api/admin/report` ends: the promise is fulfilled with a
response of some HTTP status, or it is rejected with a network error. -/
inductive ProbeOutcome where
  | response (status : Nat)
  | networkError
deriving DecidableEq, Repr

/-- The property `response.ok`: the status is in the range 200-299. -/
def responseOk (status : Nat) : Bool :=
  200 ≤ status && status ≤ 299

/-- The `then` callback of the probe, script.js lines 12-16. -/
def probeThen (status : Nat) (b : Browser) : Browser :=
  if responseOk status then navigate "/admin" b else b

/-- The `catch` callback of the probe, script.js lines 17-20. -/
def probeCatch (b : Browser) : Browser :=
  removeItem "access_token" (consoleError "Error verifying token:" b)

/-- The page-load handler of script.js up to its return, lines 2-28: the state it
leaves and whether it issued the probe. -/
def landingOnLoad (b : Browser) : Bool × Browser :=
  let token := b.localStorage.getItem "access_token"
  let (probing, b1) :=
    if toBoolean token && b.pathname == "/" then
      (true, fetch "/api/admin/report"
        { headers := some (.record [("Authorization", "Bearer " ++ jsToString token)])
          rest := [] } b)
    else (false, b)
  let b2 :=
    if b1.pathname = "/logout" then
      navigate "/" (removeItem "access_token" b1)
    else b1
  (probing, b2)

/-- The chain `.then(...).catch(...)` once the probe has ended: a response goes
to the `then` callback, which does not throw; a network error goes to the
`catch` callback. -/
def probeSettled : ProbeOutcome → Browser → Browser
  | .response status, b => probeThen status b
  | .networkError, b => probeCatch b

/-- The page-load handler of script.js followed by the callbacks of the probe,
when one was issued and ends with `outcome`. -/
def landingRouter (outcome : ProbeOutcome) (b : Browser) : Browser :=
  let (probing, b1) := landingOnLoad b
  if probing then probeSettled outcome b1 else b1

/-! ## Page loads under the Session Gate -/

/-- A freshly loaded document at `path` with storage `s`. -/
def freshPage (path : String) (s : Storage) : Browser :=
  { localStorage := s, pathname := path, navigations := [], requests := [],
    heap := [], objects := [], console := [] }

/-- One page load under the Session Gate as a step on the path and the storage:
the handler runs on the fresh document; when it assigned `window.location.href`
the path last assigned is the next path, and `none` when it assigned nothing. -/
def gateStep (path : String) (s : Storage) : Option (String × Storage) :=
  let b := sessionGate (freshPage path s)
  b.navigations.getLast?.map (fun target => (target, b.localStorage))

/-- The navigations of up to `n` consecutive page loads under the Session Gate,
starting at `path`. -/
def gateRun : Nat → String → Storage → List String
  | 0, _, _ => []
  | n + 1, path, s =>
    match gateStep path s with
    | none => []
    | some (next, s1) => next :: gateRun n next s1

/-! ## Specification vocabulary -/

/-- A token is present: the value stored under `access_token` exists and is not
the empty string. -/
def tokenPresent (s : Storage) : Prop :=
  ∃ t, s.getItem "access_token" = some t ∧ t ≠ ""

/-- The caller supplies the header entries `es` and the other options `rest`
through the argument `options`: the argument is omitted and both are empty, or
it refers to an options object with the other members `rest` whose `headers`
member is absent (`es` empty), an object literal with the entries `es`, a plain
object with the entries `es`, or a `Headers` object with the header list `es`. -/
def Supplies (b : Browser) (options : Option Nat) (es rest : List (String × String)) :
    Prop :=
  match options with
  | none => es = [] ∧ rest = []
  | some ref =>
    (b.objects[ref]? = some (.options none rest) ∧ es = [])
    ∨ b.objects[ref]? = some (.options (some (.literal es)) rest)
    ∨ (∃ r, b.objects[ref]? = some (.options (some (.dictionary r)) rest)
        ∧ b.objects[r]? = some (.dictionary es))
    ∨ (∃ r, b.objects[ref]? = some (.options (some (.headers r)) rest)
        ∧ b.heap[r]? = some ⟨es⟩)

/-- The headers of a call are accepted: every entry the caller supplies has a
valid header name and value and, when a token is present, `Bearer <token>` is a
valid header value. -/
def Accepted (s : Storage) (es : List (String × String)) : Prop :=
  es.all validEntry = true ∧
    ∀ t, s.getItem "access_token" = some t → t ≠ "" → validValue ("Bearer " ++ t) = true

/-! ## Lemmas -/

theorem toBoolean_eq_true_iff (v : Option String) :
    toBoolean v = true ↔ ∃ t, v = some t ∧ t ≠ "" := by
  cases v with
  | none => simp [toBoolean]
  | some s => simp [toBoolean]

theorem toBoolean_getItem_iff (s : Storage) :
    toBoolean (s.getItem "access_token") = true ↔ tokenPresent s :=
  toBoolean_eq_true_iff _

theorem isAuthenticated_fst (b : Browser) :
    (isAuthenticated b).1 = toBoolean (b.localStorage.getItem "access_token") := by
  simp [isAuthenticated, getAuthToken]

theorem isAuthenticated_snd (b : Browser) : (isAuthenticated b).2 = b := rfl

theorem login_not_admin : startsWith "/login" "/admin" = false := by decide

theorem getItem_removeItem (s : Storage) (key : String) :
    (s.removeItem key).getItem key = none := by
  simp [Storage.getItem, Storage.removeItem, List.find?_eq_none]

theorem root_not_logout : ("/" : String) ≠ "/logout" := by decide

theorem landingOnLoad_probing (b : Browser) (t : String) (hpath : b.pathname = "/")
    (ht : b.localStorage.getItem "access_token" = some t) (hne : t ≠ "") :
    landingOnLoad b = (true, fetch "/api/admin/report"
      { headers := some (.record [("Authorization", "Bearer " ++ t)]), rest := [] } b) := by
  have htb : toBoolean (some t) = true := (toBoolean_eq_true_iff _).2 ⟨t, rfl, hne⟩
  simp [landingOnLoad, ht, htb, hpath, fetch, jsToString, root_not_logout]

theorem filter_setFirst_same (name value : String) (l : List (String × String))
    (h : l.any (isNamed name) = true) :
    ((setFirst name value l).filter (isNamed name)).map Prod.snd = [value] := by
  induction l with
  | nil => simp at h
  | cons e es ih =>
    by_cases he : isNamed name e = true
    · have he2 : isNamed name (e.1, value) = true := he
      simp [setFirst, he, he2, List.filter_filter]
    · simp only [Bool.not_eq_true] at he
      have hes : es.any (isNamed name) = true := by simpa [he] using h
      simp [setFirst, he, ih hes]

theorem filter_setFirst_other (name value other : String) (l : List (String × String))
    (h : lower other ≠ lower name) :
    (setFirst name value l).filter (isNamed other) = l.filter (isNamed other) := by
  have hno : ∀ x : String × String, isNamed other x = true → isNamed name x = false := by
    intro x hx
    simp only [isNamed, beq_iff_eq] at hx
    simp only [isNamed, beq_eq_false_iff_ne, ne_eq]
    intro hx2
    exact h (hx.symm.trans hx2)
  induction l with
  | nil => rfl
  | cons e es ih =>
    by_cases he : isNamed name e = true
    · have h1 : isNamed other e = false := by
        cases ho : isNamed other e
        · rfl
        · rw [hno e ho] at he; cases he
      have h2 : isNamed other (e.1, value) = false := h1
      have h3 : (es.filter (fun x => !isNamed name x)).filter (isNamed other)
          = es.filter (isNamed other) := by
        rw [List.filter_filter]
        apply List.filter_congr
        intro x _
        cases ho : isNamed other x
        · simp
        · simp [hno x ho]
      simp [setFirst, he, h1, h2, h3]
    · simp only [Bool.not_eq_true] at he
      simp [setFirst, he, List.filter_cons, ih]

theorem gateStep_eq (path : String) (s : Storage) :
    gateStep path s =
      if path = "/login" then
        (if toBoolean (s.getItem "access_token") then some ("/admin", s) else none)
      else if startsWith path "/admin" then
        (if toBoolean (s.getItem "access_token") then none else some ("/login", s))
      else none := by
  by_cases hpath : path = "/login"
  · cases htok : toBoolean (s.getItem "access_token") <;>
      simp [gateStep, sessionGate, sessionGateWith, freshPage, isAuthenticated,
        getAuthToken, navigate, hpath, htok]
  · cases hadm : startsWith path "/admin" <;>
      cases htok : toBoolean (s.getItem "access_token") <;>
        simp [gateStep, sessionGate, sessionGateWith, adminCheck, freshPage,
          isAuthenticated, getAuthToken, navigate, hpath, hadm, htok]

theorem gateStep_stable (path next : String) (s s1 : Storage)
    (h : gateStep path s = some (next, s1)) : s1 = s ∧ gateStep next s1 = none := by
  have hadm : startsWith "/admin" "/admin" = true := by decide
  have hne : ¬ (("/admin" : String) = "/login") := by decide
  rw [gateStep_eq] at h
  by_cases hpath : path = "/login"
  · cases htok : toBoolean (s.getItem "access_token")
    · simp [hpath, htok] at h
    · simp only [hpath, htok, if_true, Option.some.injEq, Prod.mk.injEq] at h
      obtain ⟨h1, h2⟩ := h
      rw [← h1, ← h2]
      exact ⟨rfl, by simp [gateStep_eq, hne, hadm, htok]⟩
  · cases hpre : startsWith path "/admin"
    · simp [hpath, hpre] at h
    · cases htok : toBoolean (s.getItem "access_token")
      · simp only [hpath, hpre, htok, if_true, if_false, Bool.false_eq_true,
          Option.some.injEq, Prod.mk.injEq] at h
        obtain ⟨h1, h2⟩ := h
        rw [← h1, ← h2]
        exact ⟨rfl, by simp [gateStep_eq, htok]⟩
      · simp [hpath, hpre, htok] at h

theorem gateRun_of_step (n : Nat) (path next : String) (s s1 : Storage)
    (h : gateStep path s = some (next, s1)) : gateRun (n + 1) path s = [next] := by
  have hstable := (gateStep_stable path next s s1 h).2
  cases n with
  | zero => simp [gateRun, h]
  | succ k => simp [gateRun, h, hstable]

theorem Headers.get_replace_same (h : Headers) (name value : String) :
    (h.replace name value).get name = some value := by
  by_cases hany : h.list.any (isNamed name) = true
  · have := filter_setFirst_same name value h.list hany
    simp [Headers.replace, Headers.get, hany, this, String.intercalate,
      String.intercalate.go]
  · simp only [Bool.not_eq_true] at hany
    have hnil : h.list.filter (isNamed name) = [] := by
      simp only [List.filter_eq_nil_iff]
      intro x hx
      have := List.any_eq_false.1 hany x hx
      simpa using this
    have hself : isNamed name (name, value) = true := by simp [isNamed]
    simp [Headers.replace, Headers.get, Headers.push, hany, hnil, hself,
      String.intercalate, String.intercalate.go]

theorem Headers.get_replace_other (h : Headers) (name value other : String)
    (hne : lower other ≠ lower name) :
    (h.replace name value).get other = h.get other := by
  by_cases hany : h.list.any (isNamed name) = true
  · simp [Headers.replace, Headers.get, hany,
      filter_setFirst_other name value other h.list hne]
  · simp only [Bool.not_eq_true] at hany
    have hself : isNamed other (name, value) = false := by
      simp only [isNamed, beq_eq_false_iff_ne, ne_eq]
      exact fun hx => hne hx.symm
    simp [Headers.replace, Headers.get, Headers.push, hany, hself]

theorem Headers.fill_eq (h : Headers) (es : List (String × String)) :
    h.fill es =
      if es.all validEntry then some ⟨h.list ++ es.map normEntry⟩ else none := by
  induction es generalizing h with
  | nil => simp [Headers.fill]
  | cons e es ih =>
    by_cases he : validEntry e = true
    · have he2 : (validName e.1 && validValue e.2) = true := he
      simp [Headers.fill, Headers.append, he2, he, ih, Headers.push, normEntry]
      cases es.all validEntry <;> simp [he]
    · simp only [Bool.not_eq_true] at he
      have he2 : (validName e.1 && validValue e.2) = false := he
      simp [Headers.fill, Headers.append, he2, he]

theorem authorization_valid : validName "Authorization" = true := by decide

theorem supplies_members (b : Browser) (options : Option Nat)
    (es rest : List (String × String)) (hsup : Supplies b options es rest) :
    (optionsMembers b options).2 = rest
    ∧ initEntries b ((optionsMembers b options).1.getD (.literal [])) = es := by
  cases options with
  | none =>
    obtain ⟨h1, h2⟩ := hsup
    simp [optionsMembers, initEntries, h1, h2]
  | some ref =>
    rcases hsup with ⟨h1, h2⟩ | h1 | ⟨r, h1, h2⟩ | ⟨r, h1, h2⟩
    · simp [optionsMembers, initEntries, h1, h2]
    · simp [optionsMembers, initEntries, h1]
    · simp [optionsMembers, initEntries, h1, h2]
    · simp [optionsMembers, initEntries, h1, h2, List.getD_eq_getElem?_getD]

theorem authFetch_eq (url : String) (options : Option Nat) (b : Browser)
    (es rest : List (String × String)) (hsup : Supplies b options es rest) :
    authFetch url options b =
      if es.all validEntry then
        if toBoolean (b.localStorage.getItem "access_token") then
          if validValue ("Bearer " ++ jsToString (b.localStorage.getItem "access_token")) then
            .returned
              { b with
                heap := b.heap ++ [Headers.replace ⟨es.map normEntry⟩ "Authorization"
                  (normalizeValue
                    ("Bearer " ++ jsToString (b.localStorage.getItem "access_token")))]
                requests := b.requests ++
                  [{ url := url
                     headers := Headers.replace ⟨es.map normEntry⟩ "Authorization"
                      (normalizeValue
                        ("Bearer " ++ jsToString (b.localStorage.getItem "access_token")))
                     rest := rest }] }
          else .threw { b with heap := b.heap ++ [⟨es.map normEntry⟩] }
        else
          .returned
            { b with
              heap := b.heap ++ [⟨es.map normEntry⟩]
              requests := b.requests ++
                [{ url := url, headers := ⟨es.map normEntry⟩, rest := rest }] }
      else .threw b := by
  obtain ⟨hrest, hes⟩ := supplies_members b options es rest hsup
  cases hm : optionsMembers b options with
  | mk optionsHeaders rest1 =>
    rw [hm] at hrest hes
    simp only at hrest hes
    subst hrest
    cases hall : es.all validEntry
    · simp [authFetch, getAuthToken, hm, newHeaders, hes, Headers.fill_eq, hall]
    · cases htok : toBoolean (b.localStorage.getItem "access_token")
      · simp [authFetch, getAuthToken, hm, newHeaders, hes, Headers.fill_eq, hall, htok,
          Headers.empty, fetch, requestOf, fillHeaders, List.getD_eq_getElem?_getD]
      · cases hval :
          validValue ("Bearer " ++ jsToString (b.localStorage.getItem "access_token"))
        · simp [authFetch, getAuthToken, hm, newHeaders, hes, Headers.fill_eq, hall, htok,
            Headers.empty, headersSet, Headers.set, authorization_valid, hval,
            List.getD_eq_getElem?_getD]
        · simp [authFetch, getAuthToken, hm, newHeaders, hes, Headers.fill_eq, hall, htok,
            Headers.empty, headersSet, Headers.set, authorization_valid, hval,
            fetch, requestOf, fillHeaders, List.getD_eq_getElem?_getD]

theorem normalizeValue_bearer (t : String) (hne : t ≠ "")
    (hnorm : normalizeValue t = t) :
    normalizeValue ("Bearer " ++ t) = "Bearer " ++ t := by
  have hdata : (t.data.dropWhile isHttpWhitespace).rdropWhile isHttpWhitespace = t.data := by
    have := congrArg String.data hnorm
    simpa [normalizeValue] using this
  have hpre := List.rdropWhile_prefix isHttpWhitespace (t.data.dropWhile isHttpWhitespace)
  have hsuf := List.dropWhile_suffix isHttpWhitespace (l := t.data)
  have hlen : (t.data.dropWhile isHttpWhitespace).length = t.data.length := by
    have h1 := hpre.length_le
    have h2 := hsuf.length_le
    rw [hdata] at h1
    omega
  have hdrop : t.data.dropWhile isHttpWhitespace = t.data := hsuf.eq_of_length hlen
  rw [hdrop] at hdata
  have hlast := List.rdropWhile_eq_self_iff.1 hdata
  have hnil : t.data ≠ [] := by
    intro h
    apply hne
    cases t
    simp_all
  have hB : ("Bearer " ++ t).data = "Bearer ".data ++ t.data := String.data_append _ _
  have hd : ("Bearer ".data ++ t.data).dropWhile isHttpWhitespace = "Bearer ".data ++ t.data := by
    rfl
  have hr : ("Bearer ".data ++ t.data).rdropWhile isHttpWhitespace
      = "Bearer ".data ++ t.data := by
    rw [List.rdropWhile_eq_self_iff]
    intro hl
    rw [List.getLast_append_of_ne_nil hnil]
    exact hlast hnil
  apply String.ext
  simp only [normalizeValue, hB, hd, hr]

theorem get_normEntry_none (es : List (String × String)) (name : String)
    (h : es.any (isNamed name) = false) :
    Headers.get ⟨es.map normEntry⟩ name = none := by
  have hnil : (es.map normEntry).filter (isNamed name) = [] := by
    simp only [List.filter_eq_nil_iff, List.mem_map]
    rintro x ⟨e, he, rfl⟩
    have := List.any_eq_false.1 h e he
    simpa [isNamed, normEntry] using this
  simp [Headers.get, hnil]

/-! ## Theorems -/

/-- C1: `isAuthenticated()` returns true exactly when the value stored under
`access_token` is present and is a non-empty string; it returns false when the
key is absent and when the stored value is the empty string; it leaves storage
(and the rest of the browser state) as it was. -/
theorem isAuthenticated_iff (b : Browser) :
    ((isAuthenticated b).1 = true ↔
        ∃ t, b.localStorage.getItem "access_token" = some t ∧ t ≠ "")
    ∧ (b.localStorage.getItem "access_token" = none → (isAuthenticated b).1 = false)
    ∧ (b.localStorage.getItem "access_token" = some "" → (isAuthenticated b).1 = false)
    ∧ (isAuthenticated b).2.localStorage = b.localStorage
    ∧ (isAuthenticated b).2 = b := by
  refine ⟨?_, ?_, ?_, rfl, rfl⟩
  · rw [isAuthenticated_fst]; exact toBoolean_eq_true_iff _
  · intro h; rw [isAuthenticated_fst, h]; rfl
  · intro h; rw [isAuthenticated_fst, h]; rfl

/-- C2: `requireAuth()` returns the value of `isAuthenticated()`; when that value
is false it assigns `/login` to the location, when it is true the location (and
the whole browser state) is unchanged; storage is unchanged in both cases. -/
theorem requireAuth_spec (b : Browser) :
    (requireAuth b).1 = (isAuthenticated b).1
    ∧ ((isAuthenticated b).1 = false →
        (requireAuth b).2.navigations = b.navigations ++ ["/login"]
        ∧ (requireAuth b).2.pathname = b.pathname)
    ∧ ((isAuthenticated b).1 = true →
        (requireAuth b).2.navigations = b.navigations ∧ (requireAuth b).2 = b)
    ∧ (requireAuth b).2.localStorage = b.localStorage := by
  have hs := isAuthenticated_snd b
  cases h : (isAuthenticated b).1 <;>
    simp [requireAuth, h, hs, navigate]

/-- C4: on the path `/login` the page-load handler of the Session Gate assigns
`/admin` to the location exactly once when a token is present and assigns
nothing when none is; storage is unchanged, and whatever code follows the login
branch is not run (the handler does the same for every such code). -/
theorem sessionGate_login (b : Browser) (hpath : b.pathname = "/login") :
    (tokenPresent b.localStorage →
        (sessionGate b).navigations = b.navigations ++ ["/admin"])
    ∧ (¬ tokenPresent b.localStorage → (sessionGate b).navigations = b.navigations)
    ∧ (sessionGate b).localStorage = b.localStorage
    ∧ (∀ afterLogin : Browser → Browser, sessionGateWith afterLogin b = sessionGate b) := by
  have hs := isAuthenticated_snd b
  have hf := isAuthenticated_fst b
  rw [← toBoolean_getItem_iff, ← hf]
  cases h : (isAuthenticated b).1 <;>
    simp [sessionGate, sessionGateWith, hpath, h, hs, navigate]

/-- Witness for C4: a document at `/login` with the token `abc` stored. -/
theorem sessionGate_login_witness :
    (sessionGate (freshPage "/login" ⟨[("access_token", "abc")]⟩)).navigations
      = ["/admin"] :=
  (sessionGate_login (freshPage "/login" ⟨[("access_token", "abc")]⟩) rfl).1
    ⟨"abc", by decide, by decide⟩

/-- C5: the page-load handler of the Session Gate appends to the location log a
list `new` of assignments in which `/login` occurs exactly when the path starts
with `/admin` and no token is present, and then `new` is that one assignment; on
a path that is neither `/login` nor prefixed by `/admin` it assigns nothing. -/
theorem sessionGate_admin (b : Browser) :
    ∃ new : List String,
      (sessionGate b).navigations = b.navigations ++ new
      ∧ ("/login" ∈ new ↔
          startsWith b.pathname "/admin" = true ∧ ¬ tokenPresent b.localStorage)
      ∧ (startsWith b.pathname "/admin" = true ∧ ¬ tokenPresent b.localStorage →
          new = ["/login"])
      ∧ (b.pathname ≠ "/login" → startsWith b.pathname "/admin" = false → new = []) := by
  have hs := isAuthenticated_snd b
  have hf := isAuthenticated_fst b
  rw [← toBoolean_getItem_iff, ← hf]
  by_cases hpath : b.pathname = "/login"
  · have hadm : startsWith b.pathname "/admin" = false := by
      rw [hpath]; exact login_not_admin
    cases h : (isAuthenticated b).1
    · exact ⟨[], by simp [sessionGate, sessionGateWith, hpath, h, hs], by simp [hadm]⟩
    · refine ⟨["/admin"], by simp [sessionGate, sessionGateWith, hpath, h, hs, navigate], ?_⟩
      simp [hadm, hpath]
  · cases hadm : startsWith b.pathname "/admin"
    · exact ⟨[], by simp [sessionGate, sessionGateWith, adminCheck, hpath, hadm], by simp⟩
    · cases h : (isAuthenticated b).1
      · exact ⟨["/login"], by
          simp [sessionGate, sessionGateWith, adminCheck, hpath, hadm, h, hs, navigate],
          by simp⟩
      · exact ⟨[], by simp [sessionGate, sessionGateWith, adminCheck, hpath, hadm, h, hs],
          by simp⟩

/-- C6: with a non-empty token stored, on the path `/`, when the probe of
`/api/admin/report` is answered with status 200, the Landing Router assigns
`/admin` to the location and the token is still stored with the same value; the
probe it issued is the one request to that url, with the bearer header. -/
theorem landing_probe_ok (b : Browser) (t : String) (hpath : b.pathname = "/")
    (ht : b.localStorage.getItem "access_token" = some t) (hne : t ≠ "") :
    (landingRouter (.response 200) b).navigations = b.navigations ++ ["/admin"]
    ∧ (landingRouter (.response 200) b).localStorage.getItem "access_token" = some t
    ∧ (landingRouter (.response 200) b).requests = b.requests ++
        [{ url := "/api/admin/report"
           headers := ⟨[("Authorization", "Bearer " ++ t)]⟩
           rest := [] }] := by
  have hp := landingOnLoad_probing b t hpath ht hne
  simp [landingRouter, hp, probeSettled, probeThen, responseOk, navigate, fetch, ht,
    requestOf, fillHeaders, Headers.push, Headers.empty]

/-- Witness for C6: the document at `/` with the token `abc` stored. -/
theorem landing_probe_ok_witness :
    (landingRouter (.response 200) (freshPage "/" ⟨[("access_token", "abc")]⟩)).navigations
      = ["/admin"] :=
  (landing_probe_ok (freshPage "/" ⟨[("access_token", "abc")]⟩) "abc" rfl
    (by decide) (by decide)).1

/-- C7: with a non-empty token stored, on the path `/`, when the probe ends in a
network error, the key `access_token` is absent from storage afterwards and
nothing is assigned to the location. -/
theorem landing_probe_error (b : Browser) (t : String) (hpath : b.pathname = "/")
    (ht : b.localStorage.getItem "access_token" = some t) (hne : t ≠ "") :
    (landingRouter .networkError b).localStorage.getItem "access_token" = none
    ∧ (landingRouter .networkError b).navigations = b.navigations := by
  have hp := landingOnLoad_probing b t hpath ht hne
  simp [landingRouter, hp, probeSettled, probeCatch, removeItem, consoleError, fetch,
    getItem_removeItem]

/-- Witness for C7: the document at `/` with the token `abc` stored. -/
theorem landing_probe_error_witness :
    (landingRouter .networkError
        (freshPage "/" ⟨[("access_token", "abc")]⟩)).localStorage.getItem "access_token"
      = none :=
  (landing_probe_error (freshPage "/" ⟨[("access_token", "abc")]⟩) "abc" rfl
    (by decide) (by decide)).1

/-- C8: on the path `/logout`, whatever storage held before and however a probe
would end, the key `access_token` is absent afterwards, exactly one assignment
to the location is made and it is `/`, and no request is issued. -/
theorem landing_logout (b : Browser) (outcome : ProbeOutcome)
    (hpath : b.pathname = "/logout") :
    (landingRouter outcome b).localStorage.getItem "access_token" = none
    ∧ (landingRouter outcome b).navigations = b.navigations ++ ["/"]
    ∧ (landingRouter outcome b).requests = b.requests
    ∧ (landingOnLoad b).1 = false := by
  have hne : ¬ (("/logout" : String) = "/") := by decide
  simp [landingRouter, landingOnLoad, hpath, hne, navigate, removeItem,
    getItem_removeItem]

/-- Witness for C8: the document at `/logout` with the token `abc` stored. -/
theorem landing_logout_witness :
    (landingRouter .networkError
        (freshPage "/logout" ⟨[("access_token", "abc")]⟩)).navigations = ["/"] :=
  (landing_logout (freshPage "/logout" ⟨[("access_token", "abc")]⟩) .networkError rfl).2.1

/-- C9: with a non-empty token stored, on the path `/`, when the probe is answered
with a status that is not ok (outside 200-299), the token is still stored with
the same value and nothing is assigned to the location. -/
theorem landing_probe_not_ok (b : Browser) (t : String) (status : Nat)
    (hpath : b.pathname = "/")
    (ht : b.localStorage.getItem "access_token" = some t) (hne : t ≠ "")
    (hstatus : responseOk status = false) :
    (landingRouter (.response status) b).localStorage.getItem "access_token" = some t
    ∧ (landingRouter (.response status) b).localStorage = b.localStorage
    ∧ (landingRouter (.response status) b).navigations = b.navigations := by
  have hp := landingOnLoad_probing b t hpath ht hne
  simp [landingRouter, hp, probeSettled, probeThen, hstatus, fetch, ht]

/-- Witness for C9: the document at `/` with the token `abc` stored, the probe
answered with status 401. -/
theorem landing_probe_not_ok_witness :
    (landingRouter (.response 401)
        (freshPage "/" ⟨[("access_token", "abc")]⟩)).localStorage.getItem "access_token"
      = some "abc" :=
  (landing_probe_not_ok (freshPage "/" ⟨[("access_token", "abc")]⟩) "abc" 401 rfl
    (by decide) (by decide) (by decide)).1

/-- C3, as amended: let the caller supply the header entries `es` and the other
options `rest`. When the headers are accepted (valid names and values, and a
valid `Bearer <token>` when a token is present), `authFetch(url, options)`
returns having issued exactly one request, to `url` with the options `rest`:
with a token `t` present its `Authorization` header is the one value
`Bearer t` without leading and trailing whitespace (`Bearer t` itself when `t`
has none); with no token the headers are the caller's entries, values
normalised; so for a caller without an `Authorization` entry the request has
one exactly when a token is present; every header under another name reads as
the caller supplied it, normalised. When the headers are not accepted the call
throws and issues no request. In both cases the caller's plain objects, every
`Headers` object that existed before the call and storage are unchanged. -/
theorem authFetch_spec (url : String) (options : Option Nat) (b : Browser)
    (es rest : List (String × String)) (hsup : Supplies b options es rest) :
    (Accepted b.localStorage es →
      ∃ b1 req, authFetch url options b = .returned b1
        ∧ b1.requests = b.requests ++ [req]
        ∧ req.url = url
        ∧ req.rest = rest
        ∧ (∀ t, b.localStorage.getItem "access_token" = some t → t ≠ "" →
            req.headers.get "Authorization" = some (normalizeValue ("Bearer " ++ t))
            ∧ (normalizeValue t = t →
                req.headers.get "Authorization" = some ("Bearer " ++ t)))
        ∧ (¬ tokenPresent b.localStorage → req.headers = ⟨es.map normEntry⟩)
        ∧ (es.any (isNamed "Authorization") = false →
            ((req.headers.get "Authorization").isSome = true ↔
              tokenPresent b.localStorage))
        ∧ (∀ name, lower name ≠ lower "Authorization" →
            req.headers.get name = Headers.get ⟨es.map normEntry⟩ name)
        ∧ b1.objects = b.objects
        ∧ b1.heap.take b.heap.length = b.heap
        ∧ b1.localStorage = b.localStorage)
    ∧ (¬ Accepted b.localStorage es →
      ∃ b1, authFetch url options b = .threw b1
        ∧ b1.requests = b.requests
        ∧ b1.objects = b.objects
        ∧ b1.heap.take b.heap.length = b.heap
        ∧ b1.localStorage = b.localStorage) := by
  have heq := authFetch_eq url options b es rest hsup
  cases hall : es.all validEntry
  · -- an entry of the caller is rejected
    rw [hall] at heq
    refine ⟨fun hacc => ?_, fun _ => ⟨b, by simpa using heq, rfl, rfl, by simp, rfl⟩⟩
    rw [hacc.1] at hall
    cases hall
  · rw [hall] at heq
    cases htb : toBoolean (b.localStorage.getItem "access_token")
    · -- no token is present
      have hno : ¬ tokenPresent b.localStorage := by
        rw [← toBoolean_getItem_iff, htb]; simp
      rw [htb] at heq
      simp only [if_true, Bool.false_eq_true, if_false] at heq
      constructor
      · intro _
        refine ⟨_, _, heq, rfl, rfl, rfl, ?_, fun _ => rfl, ?_, fun _ _ => rfl, rfl,
          by simp, rfl⟩
        · intro t ht hne
          exact absurd ⟨t, ht, hne⟩ hno
        · intro hcaller
          simp [get_normEntry_none es "Authorization" hcaller, hno]
      · intro hnacc
        exfalso
        apply hnacc
        exact ⟨hall, fun t ht hne => absurd ⟨t, ht, hne⟩ hno⟩
    · -- a token is present
      obtain ⟨t, ht, hne⟩ := (toBoolean_eq_true_iff _).1 htb
      have hyes : tokenPresent b.localStorage := ⟨t, ht, hne⟩
      rw [htb, ht] at heq
      simp only [if_true, jsToString] at heq
      cases hval : validValue ("Bearer " ++ t)
      · -- the bearer value is rejected
        rw [hval] at heq
        refine ⟨fun hacc => ?_, fun _ =>
          ⟨{ b with heap := b.heap ++ [⟨es.map normEntry⟩] }, by simpa using heq, rfl, rfl,
            by simp, rfl⟩⟩
        rw [hacc.2 t ht hne] at hval
        cases hval
      · rw [hval] at heq
        simp only [if_true] at heq
        constructor
        · intro _
          refine ⟨_, _, heq, rfl, rfl, rfl, ?_, fun h => absurd hyes h, ?_, ?_, rfl,
            by simp, rfl⟩
          · intro t1 ht1 hne1
            have htt : t1 = t := by
              rw [ht] at ht1
              exact (Option.some.inj ht1).symm
            subst htt
            refine ⟨Headers.get_replace_same _ _ _, fun hnorm => ?_⟩
            simp only []
            rw [Headers.get_replace_same, normalizeValue_bearer t1 hne1 hnorm]
          · intro _
            simp [Headers.get_replace_same, hyes]
          · intro name hname
            exact Headers.get_replace_other _ _ _ _ hname
        · intro hnacc
          exfalso
          apply hnacc
          refine ⟨hall, fun t1 ht1 _ => ?_⟩
          rw [ht] at ht1
          rw [← Option.some.inj ht1]
          exact hval

/-- Witness for C3: the token `abc` is stored and the caller passes an options
object whose headers are a plain object with an `authorization` entry, a padded
value and a content type. -/
theorem authFetch_spec_witness :
    ∃ b1 req,
      authFetch "/api/admin/report" (some 0)
        { localStorage := ⟨[("access_token", "abc")]⟩, pathname := "/admin",
          navigations := [], requests := [], heap := [],
          objects := [.options (some (.dictionary 1)) [("method", "POST")],
            .dictionary [("authorization", "old"), ("X-Trace", " 1 "),
              ("Content-Type", "application/json")]],
          console := [] } = .returned b1
      ∧ b1.requests = [req]
      ∧ req.headers.get "Authorization" = some "Bearer abc"
      ∧ req.headers.get "x-trace" = some "1"
      ∧ req.headers.get "content-type" = some "application/json"
      ∧ b1.objects = [.options (some (.dictionary 1)) [("method", "POST")],
            .dictionary [("authorization", "old"), ("X-Trace", " 1 "),
              ("Content-Type", "application/json")]] := by
  obtain ⟨b1, req, hret, hreq, -, -, hauth, -, -, hother, hobj, -, -⟩ :=
    (authFetch_spec "/api/admin/report" (some 0)
      { localStorage := ⟨[("access_token", "abc")]⟩, pathname := "/admin",
        navigations := [], requests := [], heap := [],
        objects := [.options (some (.dictionary 1)) [("method", "POST")],
          .dictionary [("authorization", "old"), ("X-Trace", " 1 "),
            ("Content-Type", "application/json")]],
        console := [] }
      [("authorization", "old"), ("X-Trace", " 1 "), ("Content-Type", "application/json")]
      [("method", "POST")]
      (Or.inr (Or.inr (Or.inl ⟨1, rfl, rfl⟩)))).1
      ⟨by decide, fun t ht _ => by
        have : t = "abc" := (Option.some.inj ht).symm
        subst this
        decide⟩
  refine ⟨b1, req, hret, by simpa using hreq,
    ((hauth "abc" (by decide) (by decide)).2 (by decide)), ?_, ?_, hobj⟩
  · rw [hother "x-trace" (by decide)]; decide
  · rw [hother "content-type" (by decide)]; decide

/-- Counterexample for C3 as first stated: with the token `abc ` stored the
request carries `Bearer abc`, which is not `Bearer ` followed by the token; with
the token `a`, line feed, `b` stored the call throws and no request is issued;
a value the caller supplied as ` 1 ` reaches the request as `1`; and with the
token `a€b` stored, or with a caller header named `X A`, the call throws. -/
theorem authFetch_counterexample :
    ((authFetch "/api/admin/report" none
        (freshPage "/admin" ⟨[("access_token", "abc ")]⟩)).state.requests.map
          (fun r => r.headers.get "Authorization") = [some "Bearer abc"]
      ∧ ("Bearer abc" : String) ≠ "Bearer " ++ "abc ")
    ∧ ((authFetch "/api/admin/report" none
          (freshPage "/admin" ⟨[("access_token", "a\nb")]⟩)).returns = false
      ∧ (authFetch "/api/admin/report" none
          (freshPage "/admin" ⟨[("access_token", "a\nb")]⟩)).state.requests = [])
    ∧ ((authFetch "/api/admin/report" (some 0)
          { freshPage "/admin" ⟨[]⟩ with
            objects := [.options (some (.literal [("X-Trace", " 1 ")])) []] }
        ).state.requests.map (fun r => r.headers.get "X-Trace") = [some "1"])
    ∧ ((authFetch "/api/admin/report" none
          (freshPage "/admin" ⟨[("access_token", "a€b")]⟩)).returns = false
      ∧ (authFetch "/api/admin/report" (some 0)
          { freshPage "/admin" ⟨[("access_token", "abc")]⟩ with
            objects := [.options (some (.literal [("X A", "1")])) []] }).returns = false) := by
  decide

/-- C10: the page-load policy of the Session Gate never loops. The handler leaves
storage as it was; a step of the policy keeps the storage and leads to a path on
which the policy assigns nothing; so any number of consecutive page loads makes
at most one navigation: from `/login` with a token the one navigation is to
`/admin`, from a path prefixed by `/admin` without a token it is to `/login`. -/
theorem gate_no_redirect_loop (path : String) (s : Storage) :
    (∀ b : Browser, (sessionGate b).localStorage = b.localStorage)
    ∧ (∀ next s1, gateStep path s = some (next, s1) → s1 = s ∧ gateStep next s1 = none)
    ∧ (∀ n, (gateRun n path s).length ≤ 1)
    ∧ (path = "/login" → tokenPresent s → ∀ n, gateRun (n + 1) path s = ["/admin"])
    ∧ (startsWith path "/admin" = true → ¬ tokenPresent s →
        ∀ n, gateRun (n + 1) path s = ["/login"]) := by
  refine ⟨?_, fun next s1 h => gateStep_stable path next s s1 h, ?_, ?_, ?_⟩
  · intro b
    have hs := isAuthenticated_snd b
    by_cases hpath : b.pathname = "/login" <;>
      cases hadm : startsWith b.pathname "/admin" <;>
        cases h : (isAuthenticated b).1 <;>
          simp [sessionGate, sessionGateWith, adminCheck, hpath, hadm, h, hs, navigate]
  · intro n
    cases n with
    | zero => simp [gateRun]
    | succ k =>
      cases hstep : gateStep path s with
      | none => simp [gateRun, hstep]
      | some r =>
        obtain ⟨next, s1⟩ := r
        simp [gateRun_of_step k path next s s1 hstep]
  · intro hpath htok n
    apply gateRun_of_step n path "/admin" s s
    rw [gateStep_eq, if_pos hpath, if_pos ((toBoolean_getItem_iff s).2 htok)]
  · intro hadm htok n
    have hpath : path ≠ "/login" := by
      intro h
      rw [h, login_not_admin] at hadm
      cases hadm
    have htb : toBoolean (s.getItem "access_token") = false := by
      cases h : toBoolean (s.getItem "access_token")
      · rfl
      · exact absurd ((toBoolean_getItem_iff s).1 h) htok
    apply gateRun_of_step n path "/login" s s
    simp [gateStep_eq, hpath, hadm, htb]

/-- Witness for C10: five page loads starting at `/login` with the token `abc`
stored make the one navigation to `/admin`. -/
theorem gate_no_redirect_loop_witness :
    gateRun 5 "/login" ⟨[("access_token", "abc")]⟩ = ["/admin"] :=
  (gate_no_redirect_loop "/login" ⟨[("access_token", "abc")]⟩).2.2.2.1 rfl
    ⟨"abc", by decide, by decide⟩ 4

end MovieChatbot
